import Mathlib

/-!
Verification of the autoissue parallel-execution core.

The data model and operations below are a shallow embedding of the
repository's TypeScript code.  The repository ships the tests for the
domain classifier, the scheduler and the option schemas, together with
`core/prompt-builder.ts`; the classifier, scheduler and schema modules
themselves (`lib/domain-classifier.ts`, `core/scheduler.ts`,
`lib/types.ts`) are not part of the source tree we were given, so those
definitions are modelled from the specification (each such definition
says so in its doc comment).  `buildTaskPrompt` is translated directly
from `src/core/prompt-builder.ts`.
-/

namespace Autoissue

/-- The domain enumeration from the spec (§2, §3): the classifier labels
every task with one of these. -/
inductive Domain where
  | backend
  | frontend
  | database
  | infrastructure
  | security
  | testing
  | documentation
  | unknown
deriving DecidableEq, Repr, Fintype

/-- Modelled from the spec: `areDomainsCompatible` of
`lib/domain-classifier.ts` is missing from the given sources; the
compatibility matrix is taken verbatim from §4.2 (rules evaluated in
order: unknown on either side is incompatible, equal domains are
incompatible, database on either side is incompatible, otherwise
compatible).  The tests in `src/__tests__/domain-classifier.test.ts`
pin the same matrix. -/
def areDomainsCompatible (a b : Domain) : Bool :=
  if a = Domain.unknown ∨ b = Domain.unknown then false
  else if a = b then false
  else if a = Domain.database ∨ b = Domain.database then false
  else true

/-- Modelled from the spec: `isValidDomain` of `lib/domain-classifier.ts`
is a membership test against the domain enumeration; on the embedded
`Domain` type every value is valid. -/
def isValidDomain (_d : Domain) : Bool :=
  true

/-- Task status from the spec data model (§3):
`status ∈ {pending, running, completed, failed}`. -/
inductive Status where
  | pending
  | running
  | completed
  | failed
deriving DecidableEq, Repr

/-- Task record from the spec data model (§3):
`{ issueNumber, title, body, labels, domain, status, completedAt? }`.
Timestamps are modelled as natural numbers. -/
structure Task where
  issueNumber : Nat
  title : String
  body : String
  labels : List String
  domain : Domain
  status : Status
  completedAt : Option Nat := none
deriving DecidableEq, Repr

/-- Slot record from the spec data model (§3): `{ task | empty, startedAt | empty }`. -/
structure Slot where
  task : Option Task
  startedAt : Option Nat
deriving DecidableEq, Repr

/-- Scheduler state from the spec data model (§3):
`{ maxSlots, slots, queue, scheduled, completed, failed }`.
The `scheduled` set of issue numbers is a `Finset Nat`. -/
structure Scheduler where
  maxSlots : Nat
  slots : List Slot
  queue : List Task
  scheduled : Finset Nat
  completed : Nat
  failed : Nat

/-- Modelled from the spec: `createScheduler` of `core/scheduler.ts` is
missing from the given sources; §4.3 `create(maxSlots)` allocates N empty
slots, and the scheduler tests check that every slot starts with
`task = null` and `startedAt = null` and all counters at zero. -/
def createScheduler (maxSlots : Nat) : Scheduler where
  maxSlots := maxSlots
  slots := List.replicate maxSlots ⟨none, none⟩
  queue := []
  scheduled := ∅
  completed := 0
  failed := 0

/-- Modelled from the spec: `enqueueTask` of `core/scheduler.ts` is
missing from the given sources; §4.3 `enqueue(task)`: append to queue
unless `task.issueNumber ∈ scheduled`; record in `scheduled`. -/
def enqueueTask (s : Scheduler) (t : Task) : Scheduler :=
  if t.issueNumber ∈ s.scheduled then s
  else { s with
    queue := s.queue ++ [t]
    scheduled := insert t.issueNumber s.scheduled }

/-- Modelled from the spec: `enqueueTasks` of `core/scheduler.ts`
enqueues a list of tasks in order. -/
def enqueueTasks (s : Scheduler) (ts : List Task) : Scheduler :=
  ts.foldl enqueueTask s

/-- The tasks currently occupying slots (the running set of §3). -/
def runningTasks (slots : List Slot) : List Task :=
  slots.filterMap Slot.task

/-- Whether some slot is free (holds no task). -/
def hasFreeSlot (slots : List Slot) : Bool :=
  slots.any fun sl => sl.task.isNone

/-- §4.2: compatibility of a candidate task against the set of currently
running tasks is pairwise compatibility with every one of them. -/
def isCompatibleWithRunning (t : Task) (running : List Task) : Bool :=
  running.all fun r => areDomainsCompatible t.domain r.domain

/-- Mark a task as running (§4.3: `task.status = running` on admission). -/
def setRunning (t : Task) : Task :=
  { t with status := Status.running }

/-- Place a task into the first free slot, stamping `startedAt = now`.
Slots with tasks are left untouched. -/
def placeFirstFree (slots : List Slot) (t : Task) (now : Nat) : List Slot :=
  match slots with
  | [] => []
  | sl :: rest =>
    if sl.task.isNone then
      { task := some t, startedAt := some now } :: rest
    else
      sl :: placeFirstFree rest t now

/-- Modelled from the spec: the admission pass of `fillSlots`
(`core/scheduler.ts` is missing from the given sources), §4.3: walk the
queue in FIFO order; for each task, test compatibility against the tasks
currently occupying slots; if compatible and a free slot exists, move the
task from queue to that slot with `startedAt = now` and status running and
record it in the returned list; a skipped task remains at its queue
position; stop when no free slot remains or the queue is exhausted.
Returns (new slots, remaining queue, admitted tasks). -/
def fillSlotsAux (now : Nat) (slots : List Slot) :
    List Task → List Slot × List Task × List Task
  | [] => (slots, [], [])
  | t :: rest =>
    if hasFreeSlot slots then
      if isCompatibleWithRunning t (runningTasks slots) then
        let r := fillSlotsAux now (placeFirstFree slots (setRunning t) now) rest
        (r.1, r.2.1, setRunning t :: r.2.2)
      else
        let r := fillSlotsAux now slots rest
        (r.1, t :: r.2.1, r.2.2)
    else
      (slots, t :: rest, [])

/-- Modelled from the spec: `fillSlots` of `core/scheduler.ts` (§4.3).
The wall clock (`Date.now()` in the source's environment) is passed
explicitly as `now`.  Returns the updated scheduler and the list of
newly admitted tasks. -/
def fillSlots (s : Scheduler) (now : Nat) : Scheduler × List Task :=
  let r := fillSlotsAux now s.slots s.queue
  ({ s with slots := r.1, queue := r.2.1 }, r.2.2)

/-- Free the occupied slot holding the task with issue number `n`;
`none` when no occupied slot holds it. -/
def freeSlotFor (n : Nat) : List Slot → Option (List Slot)
  | [] => none
  | sl :: rest =>
    match sl.task with
    | some t =>
      if t.issueNumber = n then some (⟨none, none⟩ :: rest)
      else (freeSlotFor n rest).map (sl :: ·)
    | none => (freeSlotFor n rest).map (sl :: ·)

/-- Modelled from the spec: `completeTask` of `core/scheduler.ts` (§4.3):
locate the occupied slot with that task; if none, return false; free the
slot and increment `completed` or `failed`; return true. -/
def completeTask (s : Scheduler) (n : Nat) (success : Bool) :
    Scheduler × Bool :=
  match freeSlotFor n s.slots with
  | none => (s, false)
  | some slots' =>
    if success then ({ s with slots := slots', completed := s.completed + 1 }, true)
    else ({ s with slots := slots', failed := s.failed + 1 }, true)

/-- Modelled from the spec: `hasWork` of `core/scheduler.ts` (§4.3):
queue non-empty or any slot occupied. -/
def hasWork (s : Scheduler) : Bool :=
  !s.queue.isEmpty || s.slots.any fun sl => sl.task.isSome

/-- Modelled from the spec: `isComplete` of `core/scheduler.ts` (§4.3). -/
def isComplete (s : Scheduler) : Bool :=
  !hasWork s

/-- Status report shape of §4.3. -/
structure SchedulerStatus where
  running : Nat
  queued : Nat
  completed : Nat
  failed : Nat
  total : Nat
deriving DecidableEq, Repr

/-- Modelled from the spec: `getSchedulerStatus` of `core/scheduler.ts`
(§4.3): `{running, queued, completed, failed, total = |scheduled|}`. -/
def getSchedulerStatus (s : Scheduler) : SchedulerStatus where
  running := (runningTasks s.slots).length
  queued := s.queue.length
  completed := s.completed
  failed := s.failed
  total := s.scheduled.card

/-- Summary report shape of §4.3; the success rate is a rational. -/
structure Summary where
  completed : Nat
  failed : Nat
  successRate : ℚ
deriving DecidableEq, Repr

/-- Modelled from the spec: `getSummary` of `core/scheduler.ts` (§4.3):
`{completed, failed, successRate = completed / (completed + failed) × 100}`,
0 when the denominator is 0. -/
def getSummary (s : Scheduler) : Summary :=
  let total := s.completed + s.failed
  { completed := s.completed
    failed := s.failed
    successRate := if total = 0 then 0 else (s.completed : ℚ) / (total : ℚ) * 100 }

/-- One scheduler operation, for stating reachability: the executor drives
the scheduler only through enqueue, fillSlots and complete (§4.3). -/
inductive Op where
  | enqueue (t : Task)
  | fill (now : Nat)
  | complete (n : Nat) (success : Bool)

/-- Apply one operation to a scheduler state. -/
def applyOp (s : Scheduler) : Op → Scheduler
  | Op.enqueue t => enqueueTask s t
  | Op.fill now => (fillSlots s now).1
  | Op.complete n success => (completeTask s n success).1

/-- Run a sequence of operations from an initial state. -/
def runOps (init : Scheduler) (ops : List Op) : Scheduler :=
  ops.foldl applyOp init

/-- Lowercase every character of a string. -/
def lowerStr (s : String) : String :=
  ⟨s.data.map Char.toLower⟩

/-- Index of the first occurrence of `sub` as a contiguous run inside `l`,
scanning left to right. -/
def firstOccur (sub : List Char) : List Char → Option Nat
  | [] => if sub.isEmpty then some 0 else none
  | c :: t =>
    if sub.isPrefixOf (c :: t) then some 0
    else (firstOccur sub t).map (· + 1)

/-- Whether `sub` occurs as a contiguous run inside `l`. -/
def occursIn (sub : List Char) (l : List Char) : Bool :=
  (firstOccur sub l).isSome

/-- Number of (possibly overlapping) occurrences of `sub` inside a list. -/
def countOccur [BEq α] (sub : List α) : List α → Nat
  | [] => 0
  | c :: t => (if sub.isPrefixOf (c :: t) then 1 else 0) + countOccur sub t

/-- Modelled from the spec (§4.1 Tier 1): the bracketed title tags and
the canonical domain each maps to.  `lib/domain-classifier.ts` is missing
from the given sources. -/
def titleTags : List (String × Domain) :=
  [("[backend]", Domain.backend),
   ("[frontend]", Domain.frontend),
   ("[database]", Domain.database),
   ("[infra]", Domain.infrastructure),
   ("[infrastructure]", Domain.infrastructure),
   ("[security]", Domain.security),
   ("[testing]", Domain.testing),
   ("[docs]", Domain.documentation),
   ("[documentation]", Domain.documentation)]

/-- Keep the hit with the smaller title index (the leftmost tag wins;
on a tie the earlier table entry wins). -/
def betterHit (acc : Option (Nat × Domain)) (x : Nat × Domain) :
    Option (Nat × Domain) :=
  match acc with
  | none => some x
  | some a => if x.1 < a.1 then some x else acc

/-- Modelled from the spec (§4.1 Tier 1): case-insensitive scan of the
title for a bracketed tag at any position; if several tags appear the
leftmost wins. -/
def leftmostTag (title : String) : Option Domain :=
  ((titleTags.filterMap fun p =>
    (firstOccur p.1.data (lowerStr title).data).map fun i => (i, p.2)).foldl
      betterHit none).map Prod.snd

/-- The canonical tie-break order of §4.1:
backend < frontend < database < infrastructure < security < testing <
documentation. -/
def canonicalDomains : List Domain :=
  [Domain.backend, Domain.frontend, Domain.database, Domain.infrastructure,
   Domain.security, Domain.testing, Domain.documentation]

/-- Pick the domain with the highest count, ties broken in canonical
order; `none` when every count is zero. -/
def pickMost (counts : Domain → Nat) : Option Domain :=
  let best := (canonicalDomains.map counts).foldl Nat.max 0
  if best = 0 then none
  else canonicalDomains.find? fun d => counts d = best

/-- Modelled from the spec (§4.1 Tier 2): a lowercased label equal to a
canonical domain name or a documented synonym (`ui`→frontend,
`infra`→infrastructure, `db`→database) yields that domain. -/
def labelDomain (l : String) : Option Domain :=
  match lowerStr l with
  | "backend" => some Domain.backend
  | "frontend" => some Domain.frontend
  | "ui" => some Domain.frontend
  | "database" => some Domain.database
  | "db" => some Domain.database
  | "infrastructure" => some Domain.infrastructure
  | "infra" => some Domain.infrastructure
  | "security" => some Domain.security
  | "testing" => some Domain.testing
  | "documentation" => some Domain.documentation
  | _ => none

/-- Modelled from the spec (§4.1 Tier 2): the domain with the most
supporting labels wins; ties break in canonical order. -/
def tier2Labels (labels : List String) : Option Domain :=
  pickMost fun d => (labels.filterMap labelDomain).count d

/-- Modelled from the spec (§4.1 Tier 3): the recognized path
prefixes/segments and the domain each maps to. -/
def pathPatterns : List (String × Domain) :=
  [("src/api/", Domain.backend), ("server/", Domain.backend),
   ("backend/", Domain.backend),
   ("src/components/", Domain.frontend), ("ui/", Domain.frontend),
   ("frontend/", Domain.frontend), (".tsx", Domain.frontend),
   (".jsx", Domain.frontend),
   ("src/db/", Domain.database), ("migrations/", Domain.database),
   ("schema.", Domain.database),
   ("infra/", Domain.infrastructure), ("deploy/", Domain.infrastructure),
   ("Dockerfile", Domain.infrastructure),
   (".github/workflows/", Domain.infrastructure),
   ("test/", Domain.testing), ("__tests__/", Domain.testing),
   (".test.", Domain.testing), (".spec.", Domain.testing),
   ("docs/", Domain.documentation), ("README", Domain.documentation)]

/-- Modelled from the spec (§4.1 Tier 3): scan title and body
(concatenated, case-sensitive) for the path patterns; most frequent
wins; canonical order tie-break. -/
def tier3Paths (text : String) : Option Domain :=
  pickMost fun d =>
    (pathPatterns.filter fun p => p.2 == d).foldl
      (fun acc p => acc + countOccur p.1.data text.data) 0

/-- Split a character list into maximal runs of alphanumeric characters
(the words used for whole-word keyword matching). -/
def tokenize : List Char → List (List Char)
  | [] => []
  | c :: t =>
    let rest := tokenize t
    if c.isAlphanum then
      match t with
      | [] => [[c]]
      | c' :: _ =>
        if c'.isAlphanum then
          match rest with
          | [] => [[c]]
          | w :: ws => (c :: w) :: ws
        else [c] :: rest
    else rest

/-- Modelled from the spec (§4.1 Tier 4): the curated keyword vocabulary
per domain, taken from the spec's seed set; multi-word keywords are word
sequences. -/
def keywordTable : List (List String × Domain) :=
  [(["cve"], Domain.security), (["xss"], Domain.security),
   (["sql", "injection"], Domain.security),
   (["vulnerability"], Domain.security),
   (["migration"], Domain.database), (["drizzle"], Domain.database),
   (["table"], Domain.database), (["schema"], Domain.database),
   (["trpc"], Domain.backend), (["endpoint"], Domain.backend),
   (["mutation"], Domain.backend), (["handler"], Domain.backend),
   (["api"], Domain.backend),
   (["react"], Domain.frontend), (["component"], Domain.frontend),
   (["modal"], Domain.frontend), (["shadcn"], Domain.frontend),
   (["button"], Domain.frontend)]

/-- Modelled from the spec (§4.1 Tier 4): case-insensitive whole-word
matches across title+body; the domain with the most hits wins; canonical
order tie-break. -/
def tier4Keywords (text : String) : Option Domain :=
  let ws := tokenize (lowerStr text).data
  pickMost fun d =>
    (keywordTable.filter fun p => p.2 == d).foldl
      (fun acc p => acc + countOccur (p.1.map String.data) ws) 0

/-- Classification record of §3: domain, confidence in [0,1], reasons. -/
structure Classification where
  domain : Domain
  confidence : ℚ
  reasons : List String
deriving DecidableEq, Repr

/-- Issue record fields consumed by the classifier (§3). -/
structure GitHubIssue where
  number : Nat
  title : String
  body : String
  labels : List String
deriving DecidableEq, Repr

/-- Modelled from the spec: `classifyIssue` of `lib/domain-classifier.ts`
is missing from the given sources; §4.1: four tiers tried in strict
order, the first that produces a match wins and terminates the cascade;
confidences 1.0 / 0.9 / 0.7 / 0.5; fallback `unknown` at 0.0. -/
def classifyIssue (issue : GitHubIssue) : Classification :=
  match leftmostTag issue.title with
  | some d => { domain := d, confidence := 1, reasons := ["Title tag"] }
  | none =>
    match tier2Labels issue.labels with
    | some d => { domain := d, confidence := 9 / 10, reasons := ["Label"] }
    | none =>
      match tier3Paths (issue.title ++ " " ++ issue.body) with
      | some d => { domain := d, confidence := 7 / 10, reasons := ["Path"] }
      | none =>
        match tier4Keywords (issue.title ++ " " ++ issue.body) with
        | some d => { domain := d, confidence := 1 / 2, reasons := ["Keyword"] }
        | none => { domain := Domain.unknown, confidence := 0, reasons := [] }

/-- The agent models accepted by the spawn schema (spec §6). -/
def validModels : List String :=
  ["opus", "sonnet", "haiku"]

/-- Spawn options validated by `SpawnOptionsSchema` of `lib/types.ts`
(the module is missing from the given sources); fields per the agent
interface of §6 and the schema tests. -/
structure SpawnOptions where
  model : String
  maxBudgetUsd : ℚ
  systemPrompt : String
  timeoutMs : Option Nat := none
  cwd : Option String := none
deriving DecidableEq, Repr

/-- Budget check: at least 0.01 USD.  For a rational `q` (in lowest
terms, positive denominator) the bound `1/100 ≤ q` is equivalent to
`q.den ≤ 100 * q.num`. -/
def budgetOk (q : ℚ) : Bool :=
  decide ((q.den : ℤ) ≤ 100 * q.num)

/-- Non-blank check on the system prompt: at least one non-whitespace
character (the schema rejects empty and whitespace-only prompts). -/
def promptOk (s : String) : Bool :=
  s.data.any fun c => !c.isWhitespace

/-- Timeout check: when present, at least 5 seconds and at most one hour. -/
def timeoutOk : Option Nat → Bool
  | none => true
  | some t => decide (5000 ≤ t) && decide (t ≤ 3600000)

/-- Working-directory check: when present, an absolute path (leading '/'). -/
def cwdOk : Option String → Bool
  | none => true
  | some p =>
    match p.data with
    | c :: _ => c == '/'
    | [] => false

/-- Modelled from the spec: the validation predicate of
`SpawnOptionsSchema` in `lib/types.ts`, which is missing from the given
sources.  Per the schema tests: the model must be one of
opus/sonnet/haiku; the budget at least 0.01; the system prompt non-blank;
`timeoutMs`, when present, at least 5 seconds and at most one hour; `cwd`,
when present, an absolute path. -/
def SpawnOptionsSchema (o : SpawnOptions) : Bool :=
  validModels.contains o.model &&
  budgetOk o.maxBudgetUsd &&
  promptOk o.systemPrompt &&
  timeoutOk o.timeoutMs &&
  cwdOk o.cwd

/-- The maximum configurable `executor.timeoutMinutes` (spec §6:
integer in [5,120]). -/
def timeoutMinutesMax : Nat := 120

/-- The agent timeout derived from the configuration (spec §5:
`timeoutMs = timeoutMinutes × 60_000`). -/
def agentTimeoutMs (timeoutMinutes : Nat) : Nat :=
  timeoutMinutes * 60000

/-- The task-description part of the prompt: issue number, title, body
(from `src/core/prompt-builder.ts`). -/
def taskDescription (task : Task) : String :=
  "TASK: #" ++ toString task.issueNumber ++ " - " ++ task.title ++
  "\n\n" ++ task.body

/-- The standard-instructions part of the prompt
(from `src/core/prompt-builder.ts`); a fixed template mentioning the
issue number only in the name of the fallback analysis file. -/
def criticalInstructions (issueNumber : Nat) : String :=
  "\n\nCRITICAL INSTRUCTIONS:\n1. Start implementing immediately - do NOT spend turns just reading/exploring\n2. Read ONLY the specific files mentioned in the task description\n3. Make the required changes using Edit/Write tools\n4. If the task is genuinely impossible (missing files, conflicting requirements), create ANALYSIS-" ++
  toString issueNumber ++
  ".md with a brief explanation\n\nSCOPE: Only modify files required by this task. Do not refactor unrelated code.\n\nACTION REQUIRED: You must produce either code changes OR an analysis file. Completing without changes is not acceptable."

/-- Translated from `src/core/prompt-builder.ts` `buildTaskPrompt`: the
template-literal interpolation of the task's issue number, title and
body followed by the critical-instructions text. -/
def buildTaskPrompt (task : Task) : String :=
  "TASK: #" ++ toString task.issueNumber ++ " - " ++ task.title ++
  "\n\n" ++ task.body ++
  "\n\nCRITICAL INSTRUCTIONS:\n1. Start implementing immediately - do NOT spend turns just reading/exploring\n2. Read ONLY the specific files mentioned in the task description\n3. Make the required changes using Edit/Write tools\n4. If the task is genuinely impossible (missing files, conflicting requirements), create ANALYSIS-" ++
  toString task.issueNumber ++
  ".md with a brief explanation\n\nSCOPE: Only modify files required by this task. Do not refactor unrelated code.\n\nACTION REQUIRED: You must produce either code changes OR an analysis file. Completing without changes is not acceptable."

/-! ## Sample data used by the witnesses -/

/-- A concrete backend task used by the witnesses. -/
def sampleTask : Task where
  issueNumber := 1
  title := "[Backend] Task 1"
  body := ""
  labels := ["backend"]
  domain := Domain.backend
  status := Status.pending

/-- A concrete scheduler with one running backend task and one free
slot, used by the witnesses. -/
def sampleSched : Scheduler where
  maxSlots := 2
  slots := [⟨some { sampleTask with status := Status.running }, some 0⟩, ⟨none, none⟩]
  queue := []
  scheduled := {1}
  completed := 0
  failed := 0

/-- A second concrete backend task used by the witnesses. -/
def sampleTask2 : Task :=
  { sampleTask with issueNumber := 2, title := "[Backend] Task 2" }

/-- A concrete scheduler with two backend tasks queued and two free
slots, used by the admission witness. -/
def sampleQueueSched : Scheduler where
  maxSlots := 2
  slots := [⟨none, none⟩, ⟨none, none⟩]
  queue := [sampleTask, sampleTask2]
  scheduled := {1, 2}
  completed := 0
  failed := 0

/-- A concrete scheduler with two completions and one failure recorded,
used by the summary witness. -/
def sampleDoneSched : Scheduler where
  maxSlots := 3
  slots := [⟨none, none⟩, ⟨none, none⟩, ⟨none, none⟩]
  queue := []
  scheduled := {1, 2, 3}
  completed := 2
  failed := 1

/-- Concrete valid spawn options used by the schema witness. -/
def sampleSpawn : SpawnOptions where
  model := "sonnet"
  maxBudgetUsd := 5
  systemPrompt := "Test"

/-! ## C1 — compatibility matrix -/

/-- C1: for all domains `a` and `b`, `areDomainsCompatible a b` returns
true exactly when `a ≠ b`, neither side is `unknown` and neither side is
`database`; the relation is symmetric and `areDomainsCompatible d d` is
false for every domain `d`. -/
theorem areDomainsCompatible_spec (a b : Domain) :
    (areDomainsCompatible a b = true ↔
      a ≠ b ∧ a ≠ Domain.unknown ∧ b ≠ Domain.unknown ∧
      a ≠ Domain.database ∧ b ≠ Domain.database) ∧
    areDomainsCompatible a b = areDomainsCompatible b a ∧
    areDomainsCompatible a a = false := by
  revert a b
  decide

/-- Witness for C1 at concrete domains: backend and frontend are
distinct, non-unknown, non-database, hence compatible. -/
theorem areDomainsCompatible_spec_witness :
    areDomainsCompatible Domain.backend Domain.frontend = true :=
  (areDomainsCompatible_spec Domain.backend Domain.frontend).1.mpr
    ⟨by decide, by decide, by decide, by decide, by decide⟩

/-! ## C5 — enqueue idempotency per issue number -/

/-- C5: `enqueueTask` appends the task to the queue unless its issue
number is already in the scheduled set, records the issue number in the
scheduled set, and calling it twice in succession with the same task
leaves exactly one appended copy in the queue (idempotent per issue
number). -/
theorem enqueueTask_idempotent (s : Scheduler) (t : Task) :
    (t.issueNumber ∈ s.scheduled → enqueueTask s t = s) ∧
    (t.issueNumber ∉ s.scheduled →
      enqueueTask s t =
        { s with queue := s.queue ++ [t],
                 scheduled := insert t.issueNumber s.scheduled }) ∧
    enqueueTask (enqueueTask s t) t = enqueueTask s t ∧
    (t.issueNumber ∉ s.scheduled →
      (enqueueTask (enqueueTask s t) t).queue = s.queue ++ [t]) := by
  by_cases h : t.issueNumber ∈ s.scheduled
  · refine ⟨fun _ => by simp [enqueueTask, h], fun hn => absurd h hn, ?_, fun hn => absurd h hn⟩
    simp [enqueueTask, h]
  · refine ⟨fun hm => absurd hm h, fun _ => by simp [enqueueTask, h], ?_, fun _ => ?_⟩
    · simp [enqueueTask, h]
    · simp [enqueueTask, h]

/-- Witness for C5: enqueueing the sample task twice into a fresh
scheduler leaves exactly one copy in the queue. -/
theorem enqueueTask_idempotent_witness :
    (enqueueTask (enqueueTask (createScheduler 3) sampleTask) sampleTask).queue =
      (createScheduler 3).queue ++ [sampleTask] :=
  (enqueueTask_idempotent (createScheduler 3) sampleTask).2.2.2 (by decide)

/-! ## C6 — complete on an unknown issue number is a no-op -/

/-- `freeSlotFor` finds nothing when no occupied slot holds issue `n`. -/
theorem freeSlotFor_eq_none {n : Nat} :
    ∀ {slots : List Slot},
      (∀ sl ∈ slots, ∀ t, sl.task = some t → t.issueNumber ≠ n) →
      freeSlotFor n slots = none
  | [], _ => rfl
  | sl :: rest, h => by
    have hrest : freeSlotFor n rest = none :=
      freeSlotFor_eq_none fun sl' hm t ht => h sl' (List.mem_cons_of_mem _ hm) t ht
    cases hsl : sl.task with
    | none => simp [freeSlotFor, hsl, hrest]
    | some t =>
      have hne : t.issueNumber ≠ n := h sl (List.mem_cons_self _ _) t hsl
      simp [freeSlotFor, hsl, hne, hrest]

/-- C6: `completeTask` called with an issue number that occupies no slot
returns false and leaves the scheduler state entirely unchanged. -/
theorem completeTask_unknown_noop (s : Scheduler) (n : Nat) (success : Bool)
    (h : ∀ sl ∈ s.slots, ∀ t, sl.task = some t → t.issueNumber ≠ n) :
    completeTask s n success = (s, false) := by
  simp [completeTask, freeSlotFor_eq_none h]

/-- Witness for C6: completing issue 999 on the sample scheduler (whose
only running task is issue 1) returns false and changes nothing. -/
theorem completeTask_unknown_noop_witness :
    completeTask sampleSched 999 true = (sampleSched, false) :=
  completeTask_unknown_noop sampleSched 999 true (by
    intro sl hm t ht
    simp only [sampleSched, List.mem_cons, List.not_mem_nil, or_false] at hm
    rcases hm with rfl | rfl
    · simp only [Slot.task] at ht
      injection ht with ht
      subst ht
      decide
    · simp at ht)

/-! ## C7 — success rate -/

/-- C7: `getSummary` reports the completed and failed counts and a
success rate of completed / (completed + failed) × 100, with 0 when the
denominator is 0. -/
theorem getSummary_successRate (s : Scheduler) :
    (getSummary s).completed = s.completed ∧
    (getSummary s).failed = s.failed ∧
    (s.completed + s.failed = 0 → (getSummary s).successRate = 0) ∧
    (s.completed + s.failed ≠ 0 →
      (getSummary s).successRate =
        (s.completed : ℚ) / ((s.completed : ℚ) + (s.failed : ℚ)) * 100) := by
  refine ⟨rfl, rfl, fun h => by simp [getSummary, h], fun h => ?_⟩
  simp [getSummary, h]

/-- Witness for C7 at a scheduler with 2 completions and 1 failure. -/
theorem getSummary_successRate_witness :
    (getSummary sampleDoneSched).successRate =
      ((sampleDoneSched.completed : ℚ)) /
        ((sampleDoneSched.completed : ℚ) + (sampleDoneSched.failed : ℚ)) * 100 :=
  (getSummary_successRate sampleDoneSched).2.2.2 (by decide)

/-! ## C10 — spawn-option timeout bounds -/

/-- C10: `SpawnOptionsSchema` accepts `timeoutMs` only between 5 seconds
and one hour: for otherwise-valid options it rejects 1000 and 4000000,
and the agent timeout derived from the maximum configurable
`executor.timeoutMinutes` of 120 (7200000 ms) cannot pass the schema. -/
theorem spawnOptionsSchema_timeout_bounds (o : SpawnOptions)
    (h : SpawnOptionsSchema { o with timeoutMs := none } = true) :
    (∀ t : Nat, SpawnOptionsSchema { o with timeoutMs := some t } = true ↔
        5000 ≤ t ∧ t ≤ 3600000) ∧
    SpawnOptionsSchema { o with timeoutMs := some 1000 } = false ∧
    SpawnOptionsSchema { o with timeoutMs := some 4000000 } = false ∧
    agentTimeoutMs timeoutMinutesMax = 7200000 ∧
    SpawnOptionsSchema { o with timeoutMs := some (agentTimeoutMs timeoutMinutesMax) } = false := by
  simp only [SpawnOptionsSchema, Bool.and_eq_true, timeoutOk] at h
  obtain ⟨⟨⟨⟨hA, hB⟩, hC⟩, -⟩, hE⟩ := h
  refine ⟨fun t => ?_, ?_, ?_, rfl, ?_⟩
  · simp only [SpawnOptionsSchema, Bool.and_eq_true, timeoutOk, decide_eq_true_eq]
    constructor
    · rintro ⟨⟨-, ht⟩, -⟩
      exact ht
    · rintro ⟨hl, hu⟩
      exact ⟨⟨⟨⟨hA, hB⟩, hC⟩, hl, hu⟩, hE⟩
  · simp [SpawnOptionsSchema, timeoutOk]
  · simp [SpawnOptionsSchema, timeoutOk]
  · simp [SpawnOptionsSchema, timeoutOk, agentTimeoutMs, timeoutMinutesMax]

/-- Witness for C10 at concrete valid options: the derived 120-minute
agent timeout is rejected by the schema. -/
theorem spawnOptionsSchema_timeout_bounds_witness :
    SpawnOptionsSchema { sampleSpawn with timeoutMs := some (agentTimeoutMs timeoutMinutesMax) } = false :=
  (spawnOptionsSchema_timeout_bounds sampleSpawn (by decide)).2.2.2.2

/-! ## C9 — prompt builder -/

/-- C9: `buildTaskPrompt` is a pure function of the task, equal to the
task description (which embeds the issue number, title and body, each
occurring verbatim in the prompt) followed by the standard critical
instructions; equal tasks yield equal prompts. -/
theorem buildTaskPrompt_correct (t : Task) :
    buildTaskPrompt t = taskDescription t ++ criticalInstructions t.issueNumber ∧
    (buildTaskPrompt t).data =
      "TASK: #".data ++ (toString t.issueNumber).data ++
        (" - " ++ t.title ++ "\n\n" ++ t.body ++ criticalInstructions t.issueNumber).data ∧
    (buildTaskPrompt t).data =
      ("TASK: #" ++ toString t.issueNumber ++ " - ").data ++ t.title.data ++
        ("\n\n" ++ t.body ++ criticalInstructions t.issueNumber).data ∧
    (buildTaskPrompt t).data =
      ("TASK: #" ++ toString t.issueNumber ++ " - " ++ t.title ++ "\n\n").data ++
        t.body.data ++ (criticalInstructions t.issueNumber).data ∧
    (∀ u : Task, u = t → buildTaskPrompt u = buildTaskPrompt t) := by
  set_option maxRecDepth 40000 in
  refine ⟨?_, ?_, ?_, ?_, fun u h => congrArg buildTaskPrompt h⟩ <;>
    simp only [buildTaskPrompt, taskDescription, criticalInstructions,
      String.data_append, String.append_assoc, List.append_assoc]

/-- Witness for C9 at the sample task. -/
theorem buildTaskPrompt_correct_witness :
    buildTaskPrompt sampleTask =
      taskDescription sampleTask ++ criticalInstructions sampleTask.issueNumber ∧
    buildTaskPrompt sampleTask = buildTaskPrompt sampleTask :=
  ⟨(buildTaskPrompt_correct sampleTask).1,
   (buildTaskPrompt_correct sampleTask).2.2.2.2 sampleTask rfl⟩

/-! ## Scheduler lemmas -/

/-- The compatibility relation lifted to tasks. -/
def CompatRel (a b : Task) : Prop :=
  areDomainsCompatible a.domain b.domain = true

/-- The compatibility matrix is symmetric. -/
theorem areDomainsCompatible_comm (a b : Domain) :
    areDomainsCompatible a b = areDomainsCompatible b a := by
  revert a b
  decide

/-- Task compatibility is symmetric. -/
theorem compatRel_symm : Symmetric CompatRel := by
  intro a b h
  unfold CompatRel at h ⊢
  rwa [areDomainsCompatible_comm]

/-- A slot list of empty slots has no running tasks. -/
theorem runningTasks_replicate_empty (n : Nat) :
    runningTasks (List.replicate n ⟨none, none⟩) = [] := by
  induction n with
  | zero => rfl
  | succ k ih => simp [List.replicate_succ, runningTasks, List.filterMap_cons] at ih ⊢

/-- Unfolding `runningTasks` over an empty-headed slot list. -/
theorem runningTasks_cons_none {sl : Slot} (h : sl.task = none) (rest : List Slot) :
    runningTasks (sl :: rest) = runningTasks rest := by
  simp [runningTasks, List.filterMap_cons, h]

/-- Unfolding `runningTasks` over an occupied-headed slot list. -/
theorem runningTasks_cons_some {sl : Slot} {t : Task} (h : sl.task = some t)
    (rest : List Slot) :
    runningTasks (sl :: rest) = t :: runningTasks rest := by
  simp [runningTasks, List.filterMap_cons, h]

/-- Placing a task into a free slot permutes the running set to the new
task consed onto the old running set. -/
theorem runningTasks_placeFirstFree (t : Task) (now : Nat) :
    ∀ {slots : List Slot}, hasFreeSlot slots = true →
      (runningTasks (placeFirstFree slots t now)).Perm (t :: runningTasks slots)
  | [], h => by simp [hasFreeSlot] at h
  | sl :: rest, h => by
    cases hsl : sl.task with
    | none =>
      rw [placeFirstFree, if_pos (by simp [hsl]), runningTasks_cons_some rfl,
        runningTasks_cons_none hsl]
    | some u =>
      have hfr : hasFreeSlot rest = true := by
        simpa [hasFreeSlot, hsl] using h
      rw [placeFirstFree, if_neg (by simp [hsl]), runningTasks_cons_some hsl,
        runningTasks_cons_some hsl]
      exact ((runningTasks_placeFirstFree t now hfr).cons u).trans (List.Perm.swap t u _)

/-- Freeing the slot of issue `n` keeps a sub-collection of the running
tasks. -/
theorem freeSlotFor_sublist {n : Nat} :
    ∀ {slots slots' : List Slot}, freeSlotFor n slots = some slots' →
      (runningTasks slots').Sublist (runningTasks slots)
  | [], _, h => by simp [freeSlotFor] at h
  | sl :: rest, slots', h => by
    cases hsl : sl.task with
    | none =>
      rw [freeSlotFor, hsl] at h
      obtain ⟨rest', hr, rfl⟩ := Option.map_eq_some'.mp h
      rw [runningTasks_cons_none hsl, runningTasks_cons_none hsl]
      exact freeSlotFor_sublist hr
    | some t =>
      simp only [freeSlotFor, hsl] at h
      by_cases he : t.issueNumber = n
      · rw [if_pos he] at h
        injection h with h
        subst h
        rw [runningTasks_cons_none rfl, runningTasks_cons_some hsl]
        exact List.sublist_cons_self t _
      · rw [if_neg he] at h
        obtain ⟨rest', hr, rfl⟩ := Option.map_eq_some'.mp h
        rw [runningTasks_cons_some hsl, runningTasks_cons_some hsl]
        exact (freeSlotFor_sublist hr).cons₂ t

/-- Freeing the slot of issue `n` removes exactly one running task. -/
theorem freeSlotFor_length {n : Nat} :
    ∀ {slots slots' : List Slot}, freeSlotFor n slots = some slots' →
      (runningTasks slots).length = (runningTasks slots').length + 1
  | [], _, h => by simp [freeSlotFor] at h
  | sl :: rest, slots', h => by
    cases hsl : sl.task with
    | none =>
      rw [freeSlotFor, hsl] at h
      obtain ⟨rest', hr, rfl⟩ := Option.map_eq_some'.mp h
      rw [runningTasks_cons_none hsl, runningTasks_cons_none hsl]
      exact freeSlotFor_length hr
    | some t =>
      simp only [freeSlotFor, hsl] at h
      by_cases he : t.issueNumber = n
      · rw [if_pos he] at h
        injection h with h
        subst h
        rw [runningTasks_cons_some hsl, runningTasks_cons_none rfl]
        simp
      · rw [if_neg he] at h
        obtain ⟨rest', hr, rfl⟩ := Option.map_eq_some'.mp h
        rw [runningTasks_cons_some hsl, runningTasks_cons_some hsl]
        simpa using freeSlotFor_length hr

/-- `fillSlotsAux` on an exhausted queue leaves everything unchanged. -/
theorem fillSlotsAux_nil (now : Nat) (slots : List Slot) :
    fillSlotsAux now slots [] = (slots, [], []) := rfl

/-- `fillSlotsAux` stops when no free slot remains. -/
theorem fillSlotsAux_cons_stop {slots : List Slot} (h : hasFreeSlot slots = false)
    (now : Nat) (t : Task) (rest : List Task) :
    fillSlotsAux now slots (t :: rest) = (slots, t :: rest, []) := by
  simp [fillSlotsAux, h]

/-- `fillSlotsAux` admits a compatible head task into the first free slot. -/
theorem fillSlotsAux_cons_place {slots : List Slot} {t : Task}
    (hf : hasFreeSlot slots = true)
    (hc : isCompatibleWithRunning t (runningTasks slots) = true)
    (now : Nat) (rest : List Task) :
    fillSlotsAux now slots (t :: rest) =
      ((fillSlotsAux now (placeFirstFree slots (setRunning t) now) rest).1,
       (fillSlotsAux now (placeFirstFree slots (setRunning t) now) rest).2.1,
       setRunning t :: (fillSlotsAux now (placeFirstFree slots (setRunning t) now) rest).2.2) := by
  simp [fillSlotsAux, hf, hc]

/-- `fillSlotsAux` skips an incompatible head task, keeping its queue
position, and keeps walking the rest of the queue. -/
theorem fillSlotsAux_cons_skip {slots : List Slot} {t : Task}
    (hf : hasFreeSlot slots = true)
    (hc : isCompatibleWithRunning t (runningTasks slots) = false)
    (now : Nat) (rest : List Task) :
    fillSlotsAux now slots (t :: rest) =
      ((fillSlotsAux now slots rest).1,
       t :: (fillSlotsAux now slots rest).2.1,
       (fillSlotsAux now slots rest).2.2) := by
  simp [fillSlotsAux, hf, hc]

/-- The admission pass preserves pairwise compatibility of the running
set: every admitted task was checked against all tasks running at its
admission time. -/
theorem fillSlotsAux_pairwise (now : Nat) :
    ∀ (queue : List Task) (slots : List Slot),
      (runningTasks slots).Pairwise CompatRel →
      (runningTasks (fillSlotsAux now slots queue).1).Pairwise CompatRel
  | [], _, h => h
  | t :: rest, slots, h => by
    cases hf : hasFreeSlot slots with
    | false =>
      rw [fillSlotsAux_cons_stop hf]
      exact h
    | true =>
      cases hc : isCompatibleWithRunning t (runningTasks slots) with
      | false =>
        rw [fillSlotsAux_cons_skip hf hc]
        exact fillSlotsAux_pairwise now rest slots h
      | true =>
        rw [fillSlotsAux_cons_place hf hc]
        apply fillSlotsAux_pairwise now rest
        have hperm := runningTasks_placeFirstFree (setRunning t) now hf
        refine (hperm.pairwise_iff fun h => compatRel_symm h).mpr ?_
        refine List.Pairwise.cons (fun r hr => ?_) h
        have hall := List.all_eq_true.mp (by simpa [isCompatibleWithRunning] using hc) r hr
        simpa [CompatRel, setRunning] using hall

/-- The admission pass conserves the total of the running-set size and
the queue length. -/
theorem fillSlotsAux_length (now : Nat) :
    ∀ (queue : List Task) (slots : List Slot),
      (runningTasks (fillSlotsAux now slots queue).1).length +
        (fillSlotsAux now slots queue).2.1.length =
      (runningTasks slots).length + queue.length
  | [], slots => by simp [fillSlotsAux_nil]
  | t :: rest, slots => by
    cases hf : hasFreeSlot slots with
    | false => simp [fillSlotsAux_cons_stop hf]
    | true =>
      cases hc : isCompatibleWithRunning t (runningTasks slots) with
      | false =>
        rw [fillSlotsAux_cons_skip hf hc]
        have ih := fillSlotsAux_length now rest slots
        simp only [List.length_cons] at ih ⊢
        omega
      | true =>
        rw [fillSlotsAux_cons_place hf hc]
        have ih := fillSlotsAux_length now rest (placeFirstFree slots (setRunning t) now)
        have hlen := (runningTasks_placeFirstFree (setRunning t) now hf).length_eq
        simp only [List.length_cons] at ih hlen ⊢
        omega

/-- Running-set pairwise compatibility, as a state predicate. -/
def RunningCompatible (s : Scheduler) : Prop :=
  (runningTasks s.slots).Pairwise CompatRel

/-- Every scheduler operation preserves pairwise compatibility of the
running set. -/
theorem applyOp_compat {s : Scheduler} (op : Op) (h : RunningCompatible s) :
    RunningCompatible (applyOp s op) := by
  cases op with
  | enqueue t =>
    unfold RunningCompatible at h ⊢
    simp only [applyOp, enqueueTask]
    split
    · exact h
    · exact h
  | fill now =>
    unfold RunningCompatible at h ⊢
    simp only [applyOp]
    exact fillSlotsAux_pairwise now s.queue s.slots h
  | complete n success =>
    unfold RunningCompatible at h ⊢
    simp only [applyOp, completeTask]
    cases hfs : freeSlotFor n s.slots with
    | none => exact h
    | some slots' =>
      have hsub := freeSlotFor_sublist hfs
      cases success <;> simp only <;> exact List.Pairwise.sublist hsub h

/-- Preservation along any operation sequence. -/
theorem runOps_compat (ops : List Op) :
    ∀ {s : Scheduler}, RunningCompatible s → RunningCompatible (runOps s ops) := by
  induction ops with
  | nil => intro s h; exact h
  | cons op rest ih => intro s h; exact ih (applyOp_compat op h)

/-- The count-conservation predicate of §3:
completed + failed + |running| + |queue| = |scheduled|. -/
def Conserved (s : Scheduler) : Prop :=
  s.completed + s.failed + (runningTasks s.slots).length + s.queue.length =
    s.scheduled.card

/-- Every scheduler operation preserves count conservation. -/
theorem applyOp_conserved {s : Scheduler} (op : Op) (h : Conserved s) :
    Conserved (applyOp s op) := by
  unfold Conserved at h
  cases op with
  | enqueue t =>
    unfold Conserved
    simp only [applyOp, enqueueTask]
    by_cases hm : t.issueNumber ∈ s.scheduled
    · rw [if_pos hm]
      exact h
    · rw [if_neg hm]
      simp only [List.length_append, List.length_cons, List.length_nil,
        Finset.card_insert_of_not_mem hm]
      omega
  | fill now =>
    unfold Conserved
    simp only [applyOp, fillSlots]
    have := fillSlotsAux_length now s.queue s.slots
    omega
  | complete n success =>
    unfold Conserved
    simp only [applyOp, completeTask]
    cases hfs : freeSlotFor n s.slots with
    | none => exact h
    | some slots' =>
      have hlen := freeSlotFor_length hfs
      cases success <;> simp <;> omega

/-- Preservation along any operation sequence. -/
theorem runOps_conserved (ops : List Op) :
    ∀ {s : Scheduler}, Conserved s → Conserved (runOps s ops) := by
  induction ops with
  | nil => intro s h; exact h
  | cons op rest ih => intro s h; exact ih (applyOp_conserved op h)

/-! ## C2 — running domains pairwise compatible in every reachable state -/

/-- C2: in every scheduler state reachable from `createScheduler` by any
sequence of enqueue, fillSlots and complete operations, the tasks
occupying slots are pairwise domain-compatible. -/
theorem scheduler_running_pairwise_compatible (maxSlots : Nat) (ops : List Op) :
    (runningTasks (runOps (createScheduler maxSlots) ops).slots).Pairwise
      (fun a b => areDomainsCompatible a.domain b.domain = true) := by
  have hinit : RunningCompatible (createScheduler maxSlots) := by
    unfold RunningCompatible createScheduler
    rw [runningTasks_replicate_empty]
    exact List.Pairwise.nil
  exact runOps_compat ops hinit

/-! ## C3 — count conservation in every reachable state -/

/-- C3: in every scheduler state reachable from `createScheduler` by any
sequence of enqueue, fillSlots and complete operations, the completed
count plus the failed count plus the number of occupied slots plus the
queue length equals the size of the scheduled set, as reported by
`getSchedulerStatus`. -/
theorem scheduler_count_conservation (maxSlots : Nat) (ops : List Op) :
    (getSchedulerStatus (runOps (createScheduler maxSlots) ops)).completed +
      (getSchedulerStatus (runOps (createScheduler maxSlots) ops)).failed +
      (getSchedulerStatus (runOps (createScheduler maxSlots) ops)).running +
      (getSchedulerStatus (runOps (createScheduler maxSlots) ops)).queued =
      (getSchedulerStatus (runOps (createScheduler maxSlots) ops)).total := by
  have hinit : Conserved (createScheduler maxSlots) := by
    unfold Conserved createScheduler
    rw [runningTasks_replicate_empty]
    simp
  have h := runOps_conserved ops hinit
  unfold Conserved at h
  unfold getSchedulerStatus
  simp only
  omega

/-! ## C4 — FIFO admission pass -/

/-- The admitted tasks' issue numbers form an order-preserving
sub-sequence of the queue's issue numbers. -/
theorem fillSlotsAux_admitted_subl (now : Nat) :
    ∀ (queue : List Task) (slots : List Slot),
      ((fillSlotsAux now slots queue).2.2.map Task.issueNumber).Sublist
        (queue.map Task.issueNumber)
  | [], slots => by simp [fillSlotsAux_nil]
  | t :: rest, slots => by
    cases hf : hasFreeSlot slots with
    | false =>
      rw [fillSlotsAux_cons_stop hf]
      simp
    | true =>
      cases hc : isCompatibleWithRunning t (runningTasks slots) with
      | false =>
        rw [fillSlotsAux_cons_skip hf hc]
        simp only [List.map_cons]
        exact (fillSlotsAux_admitted_subl now rest slots).cons t.issueNumber
      | true =>
        rw [fillSlotsAux_cons_place hf hc]
        simp only [List.map_cons]
        exact (fillSlotsAux_admitted_subl now rest
          (placeFirstFree slots (setRunning t) now)).cons₂ t.issueNumber

/-- The remaining queue is an order-preserving sub-sequence of the
original queue: skipped tasks keep their relative positions. -/
theorem fillSlotsAux_queue_subl (now : Nat) :
    ∀ (queue : List Task) (slots : List Slot),
      (fillSlotsAux now slots queue).2.1.Sublist queue
  | [], slots => by simp [fillSlotsAux_nil]
  | t :: rest, slots => by
    cases hf : hasFreeSlot slots with
    | false =>
      rw [fillSlotsAux_cons_stop hf]
    | true =>
      cases hc : isCompatibleWithRunning t (runningTasks slots) with
      | false =>
        rw [fillSlotsAux_cons_skip hf hc]
        exact (fillSlotsAux_queue_subl now rest slots).cons₂ t
      | true =>
        rw [fillSlotsAux_cons_place hf hc]
        exact (fillSlotsAux_queue_subl now rest
          (placeFirstFree slots (setRunning t) now)).cons t

/-- The admission pass partitions the queue: its issue numbers are a
permutation of the admitted issue numbers followed by the remaining
ones. -/
theorem fillSlotsAux_partition (now : Nat) :
    ∀ (queue : List Task) (slots : List Slot),
      (queue.map Task.issueNumber).Perm
        ((fillSlotsAux now slots queue).2.2.map Task.issueNumber ++
          (fillSlotsAux now slots queue).2.1.map Task.issueNumber)
  | [], slots => by simp [fillSlotsAux_nil]
  | t :: rest, slots => by
    cases hf : hasFreeSlot slots with
    | false =>
      rw [fillSlotsAux_cons_stop hf]
      simp
    | true =>
      cases hc : isCompatibleWithRunning t (runningTasks slots) with
      | false =>
        rw [fillSlotsAux_cons_skip hf hc]
        simp only [List.map_cons]
        exact ((fillSlotsAux_partition now rest slots).cons t.issueNumber).trans
          List.perm_middle.symm
      | true =>
        rw [fillSlotsAux_cons_place hf hc]
        simp only [List.map_cons, List.cons_append]
        exact (fillSlotsAux_partition now rest
          (placeFirstFree slots (setRunning t) now)).cons t.issueNumber

/-- After the admission pass the running set is, up to permutation, the
admitted tasks together with the previously running tasks: every admitted
task moved into a slot and no running task was dropped. -/
theorem fillSlotsAux_running_perm (now : Nat) :
    ∀ (queue : List Task) (slots : List Slot),
      (runningTasks (fillSlotsAux now slots queue).1).Perm
        ((fillSlotsAux now slots queue).2.2 ++ runningTasks slots)
  | [], slots => by simp [fillSlotsAux_nil]
  | t :: rest, slots => by
    cases hf : hasFreeSlot slots with
    | false =>
      rw [fillSlotsAux_cons_stop hf]
      simp
    | true =>
      cases hc : isCompatibleWithRunning t (runningTasks slots) with
      | false =>
        rw [fillSlotsAux_cons_skip hf hc]
        exact fillSlotsAux_running_perm now rest slots
      | true =>
        rw [fillSlotsAux_cons_place hf hc]
        simp only [List.cons_append]
        have ih := fillSlotsAux_running_perm now rest
          (placeFirstFree slots (setRunning t) now)
        have hperm := runningTasks_placeFirstFree (setRunning t) now hf
        exact (ih.trans
          (hperm.append_left (fillSlotsAux now
            (placeFirstFree slots (setRunning t) now) rest).2.2)).trans
          List.perm_middle

/-- A task running before the admission pass is still running after it:
the pass only fills slots, never frees them. -/
theorem runningTasks_fillSlotsAux_mono (now : Nat) (queue : List Task)
    (slots : List Slot) {r : Task} (hr : r ∈ runningTasks slots) :
    r ∈ runningTasks (fillSlotsAux now slots queue).1 :=
  (fillSlotsAux_running_perm now queue slots).mem_iff.mpr
    (List.mem_append_right _ hr)

/-- Admission-completeness of the pass: every task left in the queue is
accounted for — either no slot remained free, or some task running at the
end of the pass has an incompatible domain.  Contrapositive: a task
compatible with the whole final running set is always admitted while a
free slot remains, head of the queue or not. -/
theorem fillSlotsAux_complete (now : Nat) :
    ∀ (queue : List Task) (slots : List Slot),
      ∀ t ∈ (fillSlotsAux now slots queue).2.1,
        hasFreeSlot (fillSlotsAux now slots queue).1 = false ∨
        ∃ r ∈ runningTasks (fillSlotsAux now slots queue).1,
          areDomainsCompatible t.domain r.domain = false
  | [], slots => by simp [fillSlotsAux_nil]
  | t :: rest, slots => by
    cases hf : hasFreeSlot slots with
    | false =>
      rw [fillSlotsAux_cons_stop hf]
      exact fun u _ => Or.inl hf
    | true =>
      cases hc : isCompatibleWithRunning t (runningTasks slots) with
      | true =>
        rw [fillSlotsAux_cons_place hf hc]
        exact fun u hu =>
          fillSlotsAux_complete now rest (placeFirstFree slots (setRunning t) now) u hu
      | false =>
        rw [fillSlotsAux_cons_skip hf hc]
        intro u hu
        rcases List.mem_cons.mp hu with rfl | hu'
        · have hex : ∃ r ∈ runningTasks slots,
              areDomainsCompatible u.domain r.domain = false := by
            simpa [isCompatibleWithRunning] using hc
          obtain ⟨r, hr, hrc⟩ := hex
          exact Or.inr ⟨r, runningTasks_fillSlotsAux_mono now rest slots hr, hrc⟩
        · exact fillSlotsAux_complete now rest slots u hu'

/-- C4: `fillSlots` walks the queue in FIFO order: the admitted tasks
appear in queue order; the remaining queue is the original queue with the
admitted tasks removed, in order; the running set afterwards is the
admitted tasks plus the previously running ones; nothing is admitted when
no slot is free; a compatible task at the head of the queue is admitted
first when a slot is free; and the pass is admission-complete: a task can
remain in the queue only because no slot remained free or because a task
running after the pass blocks its domain — later tasks are still
considered after a skip, and every compatible task is admitted while a
free slot exists. -/
theorem fillSlots_fifo_admission (s : Scheduler) (now : Nat) :
    ((fillSlots s now).2.map Task.issueNumber).Sublist
      (s.queue.map Task.issueNumber) ∧
    (fillSlots s now).1.queue.Sublist s.queue ∧
    (s.queue.map Task.issueNumber).Perm
      ((fillSlots s now).2.map Task.issueNumber ++
        (fillSlots s now).1.queue.map Task.issueNumber) ∧
    (runningTasks (fillSlots s now).1.slots).Perm
      ((fillSlots s now).2 ++ runningTasks s.slots) ∧
    (hasFreeSlot s.slots = false →
      (fillSlots s now).1.queue = s.queue ∧ (fillSlots s now).2 = []) ∧
    (∀ t rest, s.queue = t :: rest → hasFreeSlot s.slots = true →
      isCompatibleWithRunning t (runningTasks s.slots) = true →
      ((fillSlots s now).2).head? = some (setRunning t)) ∧
    (∀ t ∈ (fillSlots s now).1.queue,
      hasFreeSlot (fillSlots s now).1.slots = false ∨
      ∃ r ∈ runningTasks (fillSlots s now).1.slots,
        areDomainsCompatible t.domain r.domain = false) := by
  refine ⟨fillSlotsAux_admitted_subl now s.queue s.slots,
    fillSlotsAux_queue_subl now s.queue s.slots,
    fillSlotsAux_partition now s.queue s.slots,
    fillSlotsAux_running_perm now s.queue s.slots,
    fun hf => ?_, fun t rest hq hf hc => ?_,
    fun t ht => fillSlotsAux_complete now s.queue s.slots t ht⟩
  · cases hq : s.queue with
    | nil =>
      simp [fillSlots, hq, fillSlotsAux_nil]
    | cons t rest =>
      simp [fillSlots, hq, fillSlotsAux_cons_stop hf]
  · simp only [fillSlots, hq]
    rw [fillSlotsAux_cons_place hf hc]
    rfl

/-- Witness for C4: with two same-domain tasks queued and all slots
free, the head task is admitted first, and the task remaining in the
queue — a free slot still being available — is blocked by a running task
with an incompatible (same) domain. -/
theorem fillSlots_fifo_admission_witness :
    ((fillSlots sampleQueueSched 0).2).head? = some (setRunning sampleTask) ∧
    (∃ r ∈ runningTasks (fillSlots sampleQueueSched 0).1.slots,
      areDomainsCompatible sampleTask2.domain r.domain = false) :=
  ⟨(fillSlots_fifo_admission sampleQueueSched 0).2.2.2.2.2.1 sampleTask [sampleTask2]
      rfl (by decide) (by decide),
   ((fillSlots_fifo_admission sampleQueueSched 0).2.2.2.2.2.2 sampleTask2
      (by decide)).resolve_left (by decide)⟩

/-! ## C8 — tier-1 precedence in the classification cascade -/

/-- A fold of `betterHit` seeded with a hit always produces a hit. -/
theorem foldl_betterHit_isSome :
    ∀ (l : List (Nat × Domain)) (a : Nat × Domain),
      (l.foldl betterHit (some a)).isSome = true
  | [], _ => rfl
  | x :: t, a => by
    simp only [List.foldl_cons, betterHit]
    split
    · exact foldl_betterHit_isSome t x
    · exact foldl_betterHit_isSome t a

/-- A title containing some bracketed tag yields a tier-1 hit. -/
theorem leftmostTag_isSome {title : String}
    (h : ∃ p ∈ titleTags, occursIn p.1.data (lowerStr title).data = true) :
    (leftmostTag title).isSome = true := by
  obtain ⟨p, hp, hocc⟩ := h
  rw [occursIn] at hocc
  obtain ⟨i, hi⟩ := Option.isSome_iff_exists.mp hocc
  have hmem : (i, p.2) ∈ titleTags.filterMap fun q =>
      (firstOccur q.1.data (lowerStr title).data).map fun j => (j, q.2) :=
    List.mem_filterMap.mpr ⟨p, hp, by rw [hi]; rfl⟩
  obtain ⟨x, t, hxt⟩ := List.exists_cons_of_ne_nil (List.ne_nil_of_mem hmem)
  rw [leftmostTag, hxt]
  simp only [List.foldl_cons, betterHit]
  simpa using foldl_betterHit_isSome t x

/-- C8: the classification cascade is first-match-wins: for every issue
whose title contains a tier-1 bracketed domain tag, `classifyIssue`
returns the tier-1 (leftmost-tag) domain with confidence exactly 1.0,
and changing the issue's labels (in particular adding any tier-2 domain
label) does not change the classification result. -/
theorem classifyIssue_tier1_precedence (issue : GitHubIssue)
    (h : ∃ p ∈ titleTags, occursIn p.1.data (lowerStr issue.title).data = true) :
    ∃ d : Domain, leftmostTag issue.title = some d ∧
      (classifyIssue issue).domain = d ∧
      (classifyIssue issue).confidence = 1 ∧
      ∀ ls : List String,
        classifyIssue { issue with labels := ls } = classifyIssue issue := by
  obtain ⟨d, hd⟩ := Option.isSome_iff_exists.mp (leftmostTag_isSome h)
  refine ⟨d, hd, ?_, ?_, fun ls => ?_⟩
  · simp [classifyIssue, hd]
  · simp [classifyIssue, hd]
  · have hd2 : leftmostTag ({ issue with labels := ls } : GitHubIssue).title = some d := hd
    simp [classifyIssue, hd, hd2]

/-- A concrete issue with a tier-1 backend title tag, used by the
classification witness. -/
def sampleIssue : GitHubIssue where
  number := 1
  title := "[Backend] Implement JWT auth"
  body := ""
  labels := []

/-- Witness for C8 at the sample issue: tier 1 wins at confidence 1 and
a conflicting tier-2 label changes nothing. -/
theorem classifyIssue_tier1_precedence_witness :
    (classifyIssue sampleIssue).domain = Domain.backend ∧
    (classifyIssue sampleIssue).confidence = 1 ∧
    classifyIssue { sampleIssue with labels := ["backend"] } = classifyIssue sampleIssue := by
  obtain ⟨d, h1, h2, h3, h4⟩ := classifyIssue_tier1_precedence sampleIssue (by decide)
  have h5 : some d = some Domain.backend := h1.symm.trans (by decide)
  injection h5 with h5
  subst h5
  exact ⟨h2, h3, h4 ["backend"]⟩

end Autoissue
